import Mathlib

/-!
# Verification of the asset-optimization pipeline (`build/optimize.js`)

Shallow embedding of the Node build script `build/optimize.js` of the
Lagos Software Consulting landing-page repository.

Modelling conventions:
* File paths are plain strings, taken relative to the source root
  (`CONFIG.SOURCE_DIR`); `path.join`, `path.extname`, `path.basename` and
  `path.dirname` are embedded as executable string functions below.
* External npm libraries (`sharp`, `imagemin`/`svgo`, `terser`, `postcss`,
  `glob`, `fs`) are not part of the repository.  Their fallible I/O is
  abstracted into a `BuildEnv` record of oracles (one per transform kind,
  returning `Except String _` — `.error` models a thrown exception at any
  point of that file's decode/encode/write pipeline), while the parts of
  their behaviour the script configures explicitly (svgo plugin flags,
  terser compress/mangle/format options, sharp's `withoutEnlargement`
  resize clamp) are modelled as small executable semantics, each marked
  `Modelled from the library documentation` in its doc comment.
* Wall-clock timing (`performance.now()`), floating-point savings
  percentages and source-map emission appear only inside log metadata in
  the script; they are omitted from the embedded log events, which keep
  the level, message and the file the event is about.
-/

/-! ## Path helpers (embedding of the `path` module usages) -/

/-- Split a character list at every occurrence of `sep` (like
`String.splitOn` for a single character, structural recursion). -/
def splitOnChar (sep : Char) : List Char → List (List Char)
  | [] => [[]]
  | c :: rest =>
    let r := splitOnChar sep rest
    if c = sep then [] :: r
    else
      match r with
      | [] => [[c]]
      | h :: t => (c :: h) :: t

/-- The path's last `/`-separated component, as characters
(`path.basename` without extension stripping). -/
def lastComponent (p : String) : List Char :=
  (splitOnChar '/' p.toList).getLastD []

/-- The suffix of a character list starting at its last `'.'`, if any. -/
def lastDotSuffix : List Char → Option (List Char)
  | [] => none
  | '.' :: rest =>
    match lastDotSuffix rest with
    | some s => some s
    | none => some ('.' :: rest)
  | _ :: rest => lastDotSuffix rest

/-- Embedding of Node's `path.extname`: the extension of the path's last
component from its last dot (a leading dot, as in `.gitignore`, does not
start an extension). -/
def extname (p : String) : String :=
  match lastComponent p with
  | [] => ""
  | c :: rest =>
    if c = '.' then
      match lastDotSuffix rest with
      | some s => String.mk s
      | none => ""
    else
      match lastDotSuffix (c :: rest) with
      | some s => String.mk s
      | none => ""

/-- `true` when `suffix` is a suffix of `s`. -/
def strEnds (s suffix : String) : Bool :=
  s.toList.drop (s.toList.length - suffix.toList.length) == suffix.toList

/-- Embedding of `path.basename(p, ext)`: the last component with a
trailing `ext` stripped when present. -/
def basenameFor (p ext : String) : String :=
  let base := String.mk (lastComponent p)
  if ext ≠ "" ∧ strEnds base ext then base.dropRight ext.length else base

/-- Embedding of `path.dirname` on relative paths. -/
def dirname (p : String) : String :=
  let parts := splitOnChar '/' p.toList
  if parts.length ≤ 1 then "." else
    String.intercalate "/" ((parts.dropLast).map String.mk)

/-- Embedding of `path.join` for the two-argument uses in the script. -/
def joinPath (a b : String) : String := a ++ "/" ++ b

/-- ASCII lower-casing of one character (embedding of the effect of
JavaScript `toLowerCase` on the extension strings involved). -/
def lowerChar (c : Char) : Char :=
  if 'A' ≤ c ∧ c ≤ 'Z' then Char.ofNat (c.toNat + 32) else c

/-- Lower-case a string character-wise. -/
def lowerStr (s : String) : String := String.mk (s.toList.map lowerChar)

/-- `true` when `pre` is a prefix of `s` (used for the glob `ignore`
patterns, which are all directory prefixes). -/
def strStartsWith (s pre : String) : Bool :=
  s.toList.take pre.toList.length == pre.toList

/-! ## Configuration (`CONFIG`, frozen at lines 20–32) -/

structure ImageQualityConfig where
  webp : Nat
  jpeg : Nat
  png : Nat
deriving DecidableEq

structure BuildConfig where
  BUILD_DIR : String
  SOURCE_DIR : String
  IMAGE_QUALITY : ImageQualityConfig
  IMAGE_SIZES : List Nat
  MAX_IMAGE_WIDTH : Nat
  CACHE_DURATION : Nat
  GZIP_LEVEL : Nat
deriving DecidableEq

/-- The frozen `CONFIG` object (directories taken relative to the source
root: `BUILD_DIR` is `<root>/dist`, `SOURCE_DIR` the root itself). -/
def CONFIG : BuildConfig :=
  { BUILD_DIR := "dist"
    SOURCE_DIR := "."
    IMAGE_QUALITY := { webp := 80, jpeg := 85, png := 90 }
    IMAGE_SIZES := [320, 640, 1024, 1920]
    MAX_IMAGE_WIDTH := 1920
    CACHE_DURATION := 31536000
    GZIP_LEVEL := 9 }

/-- `SUPPORTED_IMAGE_FORMATS` (lines 34–36). -/
def SUPPORTED_IMAGE_FORMATS : List String :=
  [".jpg", ".jpeg", ".png", ".svg", ".webp"]

/-- Boolean membership test used where the script calls
`SUPPORTED_IMAGE_FORMATS.has(ext)`. -/
def strMem (s : String) : List String → Bool
  | [] => false
  | t :: rest => if s = t then true else strMem s rest

/-! ## Records and log events (§3 data model) -/

/-- An asset record as pushed by `optimizeImage` (`{path, format, size}`,
lines 132–136 / 166–170 / 188–192 / 214–218).  The extra `width` field is
a ghost observation recording the pixel width of the written raster
rendition (determined by the embedded sharp resize semantics); it is
`none` for vector outputs. -/
structure AssetRecord where
  path : String
  format : String
  size : Nat
  width : Option Nat
deriving DecidableEq

/-- A `{path, size}` record as returned by `optimizeCSS`, `optimizeJS`
and `copyFile`. -/
structure FileRecord where
  path : String
  size : Nat
deriving DecidableEq

/-- An error record as pushed into `results.errors`
(`{type, path, error}`). -/
structure ErrorRecord where
  type : String
  path : String
  error : String
deriving DecidableEq

inductive LogLevel where
  | info
  | warn
  | error
deriving DecidableEq

/-- One structured log line, reduced to its level, message and the file
it concerns. -/
structure LogEvent where
  level : LogLevel
  message : String
  path : String
deriving DecidableEq

/-! ## Library semantics configured by the script -/

/-- svgo plugin activation flags, as passed at lines 113–123
(`removeViewBox` **inactive**, `cleanupIDs` active, `removeUnusedNS`
active). -/
structure SvgoPluginFlags where
  removeViewBox : Bool
  cleanupIDs : Bool
  removeUnusedNS : Bool
deriving DecidableEq

/-- The flag object `optimizeImage` passes to `imageminSvgo`
(lines 115–121): `{ removeViewBox: active false, cleanupIDs: active true,
removeUnusedNS: active true }`. -/
def optimizeImageSvgoFlags : SvgoPluginFlags :=
  { removeViewBox := false, cleanupIDs := true, removeUnusedNS := true }

/-- Structural abstraction of an SVG document: its optional `viewBox`
attribute, its internal ids, its unused namespace declarations, and an
opaque remainder. -/
structure SvgDoc where
  viewBox : Option String
  ids : List String
  unusedNamespaces : List String
  body : String
deriving DecidableEq

/-- Modelled from the library documentation (svgo): the structural
cleanup pass — `removeViewBox` drops the `viewBox` attribute when active,
`cleanupIDs` normalizes internal ids, `removeUnusedNS` strips unused
namespace declarations; everything else is kept. -/
def svgoOptimize (f : SvgoPluginFlags) (d : SvgDoc) : SvgDoc :=
  { viewBox := if f.removeViewBox then none else d.viewBox
    ids :=
      if f.cleanupIDs then (List.range d.ids.length).map (fun i => "a" ++ toString i)
      else d.ids
    unusedNamespaces := if f.removeUnusedNS then [] else d.unusedNamespaces
    body := d.body }

/-- terser `compress` options (lines 306–313). -/
structure TerserCompressOptions where
  dead_code : Bool
  drop_console : Bool
  drop_debugger : Bool
  keep_classnames : Bool
  keep_fnames : Bool
  passes : Nat
deriving DecidableEq

/-- terser `mangle` options (lines 314–317). -/
structure TerserMangleOptions where
  toplevel : Bool
  safari10 : Bool
deriving DecidableEq

/-- terser `format` options (lines 318–321). -/
structure TerserFormatOptions where
  comments : Bool
  ecma : Nat
deriving DecidableEq

structure TerserOptions where
  compress : TerserCompressOptions
  mangle : TerserMangleOptions
  format : TerserFormatOptions
deriving DecidableEq

/-- The exact options object `optimizeJS` passes to `terserMinify`
(lines 305–326, source-map block omitted). -/
def optimizeJSTerserOptions : TerserOptions :=
  { compress :=
      { dead_code := true
        drop_console := false
        drop_debugger := true
        keep_classnames := false
        keep_fnames := false
        passes := 2 }
    mangle := { toplevel := true, safari10 := true }
    format := { comments := false, ecma := 2020 } }

/-- Statement-level abstraction of a JavaScript program for the terser
model: a reachable `debugger;` statement, a reachable `console.*` call
(carrying its rendered argument text), a comment, a statically dead
statement, or any other live statement. -/
inductive JsStmt where
  | debuggerStmt
  | consoleCall (args : String)
  | comment (text : String)
  | deadStmt (code : String)
  | liveStmt (code : String)
deriving DecidableEq

/-- Modelled from the library documentation (terser): whether one
statement survives minification under the given options —
`drop_debugger` removes `debugger;` statements, `drop_console` removes
`console.*` calls, `dead_code` removes statically dead statements, and
`format.comments = false` strips comments. -/
def terserKeepStmt (o : TerserOptions) : JsStmt → Bool
  | .debuggerStmt => !o.compress.drop_debugger
  | .consoleCall _ => !o.compress.drop_console
  | .comment _ => o.format.comments
  | .deadStmt _ => !o.compress.dead_code
  | .liveStmt _ => true

/-- Modelled from the library documentation (terser): minification at the
statement level keeps exactly the statements `terserKeepStmt` retains
(mangling renames identifiers inside statements and does not change the
statement sequence). -/
def terserMinifyStmts (o : TerserOptions) (prog : List JsStmt) : List JsStmt :=
  prog.filter (terserKeepStmt o)

/-- Modelled from the library documentation (sharp):
`resize(w, null, { withoutEnlargement: true, fit: 'inside' })` never
enlarges, so the written width is the requested width clamped to the
source's natural width. -/
def sharpResizeWidth (requested naturalWidth : Nat) : Nat :=
  min requested naturalWidth

/-- JavaScript falsiness of `result.code` at line 328 (`!result.code`):
true for a missing code string and for the empty string. -/
def jsFalsy : Option String → Bool
  | none => true
  | some s => s.isEmpty

/-! ## The environment of external effects -/

/-- Data the sharp/imagemin raster pipeline yields for one decodable
source image: the natural width from `metadata()` and the byte sizes of
the encoded renditions. -/
structure RasterData where
  naturalWidth : Nat
  webpSize : Nat
  jpegSize : Nat
  pngSize : Nat
deriving DecidableEq

/-- Oracles for the external, fallible I/O each transform performs.
`.error msg` models an exception thrown anywhere in that file's
read/decode/encode/write pipeline (the script's per-file `try` blocks
make the surrounding record pushes all-or-nothing, so a single failure
point per file is an exact abstraction of the observable outcome). -/
structure BuildEnv where
  rasterOf : String → Except String RasterData
  svgReadOf : String → Except String SvgDoc
  svgByteSize : SvgDoc → Nat
  cssOf : String → Except String Nat
  jsOf : String → Except String (Option String)
  htmlOf : String → Except String Nat

/-! ## The transforms (lines 95–384) -/

/-- The `OptimizationError` message `optimizeImage` wraps a failure in
(lines 232–237): only the relative path survives into `error.message`. -/
def imageWrapMsg (p : String) : String := "Failed to optimize image: " ++ p

/-- The SVG block of `optimizeImage` (lines 111–148): read the document,
run the svgo pass with the flags of lines 115–121, write one `.svg`
output and push one asset record. -/
def optimizeImageSvg (env : BuildEnv) (inputPath outputDir ext : String) :
    Except String (List AssetRecord) × List LogEvent :=
  match env.svgReadOf inputPath with
  | .error _ => (.error (imageWrapMsg inputPath), [])
  | .ok doc =>
    let optimized := svgoOptimize optimizeImageSvgoFlags doc
    (.ok [{ path := joinPath outputDir (basenameFor inputPath ext ++ ".svg")
            format := "svg"
            size := env.svgByteSize optimized
            width := none }],
     [⟨.info, "Optimized SVG", inputPath⟩])

/-- The raster block of `optimizeImage` (lines 150–230): clamp the target
width to `min(metadata.width, CONFIG.MAX_IMAGE_WIDTH)` (line 153), always
push a `.webp` record (lines 155–170), then a `.jpg` record for JPEG
sources (lines 172–192) or a `.png` record for PNG sources
(lines 193–219). -/
def optimizeImageRaster (env : BuildEnv) (inputPath outputDir ext : String) :
    Except String (List AssetRecord) × List LogEvent :=
  match env.rasterOf inputPath with
  | .error _ => (.error (imageWrapMsg inputPath), [])
  | .ok data =>
    let targetWidth := min data.naturalWidth CONFIG.MAX_IMAGE_WIDTH
    let outWidth := sharpResizeWidth targetWidth data.naturalWidth
    let webpRec : AssetRecord :=
      { path := joinPath outputDir (basenameFor inputPath ext ++ ".webp")
        format := "webp"
        size := data.webpSize
        width := some outWidth }
    let recs :=
      if ext = ".jpg" ∨ ext = ".jpeg" then
        [webpRec,
         { path := joinPath outputDir (basenameFor inputPath ext ++ ".jpg")
           format := "jpeg"
           size := data.jpegSize
           width := some outWidth }]
      else if ext = ".png" then
        [webpRec,
         { path := joinPath outputDir (basenameFor inputPath ext ++ ".png")
           format := "png"
           size := data.pngSize
           width := some outWidth }]
      else [webpRec]
    (.ok recs, [⟨.info, "Optimized image", inputPath⟩])

/-- Embedding of `optimizeImage` (lines 95–238).  Returns the transform
outcome (`.ok` with the pushed asset records, `.error` with the wrapping
`OptimizationError` message) and the log events the call emits. -/
def optimizeImage (env : BuildEnv) (inputPath outputDir : String) :
    Except String (List AssetRecord) × List LogEvent :=
  let ext := lowerStr (extname inputPath)
  if !strMem ext SUPPORTED_IMAGE_FORMATS then
    (.ok [], [⟨.warn, "Unsupported image format", inputPath⟩])
  else if ext = ".svg" then
    optimizeImageSvg env inputPath outputDir ext
  else
    optimizeImageRaster env inputPath outputDir ext

/-- The SVG document `optimizeImage` writes for an SVG input that reads
successfully (the argument of the `fs.writeFile` at line 126). -/
def optimizeImageSvgOutput (env : BuildEnv) (inputPath : String) : Option SvgDoc :=
  match env.svgReadOf inputPath with
  | .error _ => none
  | .ok doc => some (svgoOptimize optimizeImageSvgoFlags doc)

/-- Embedding of `optimizeCSS` (lines 240–295). -/
def optimizeCSS (env : BuildEnv) (inputPath outputPath : String) :
    Except String FileRecord × List LogEvent :=
  match env.cssOf inputPath with
  | .error _ => (.error ("Failed to optimize CSS: " ++ inputPath), [])
  | .ok size =>
    (.ok { path := outputPath, size := size },
     [⟨.info, "Optimized CSS", inputPath⟩])

/-- Embedding of `optimizeJS` (lines 297–363): the terser call is
abstracted by `env.jsOf` returning `result.code`; a falsy `result.code`
raises `Error('Minification produced no output')` inside the same `try`,
so it surfaces as the same wrapped `OptimizationError` as any thrown
transform error. -/
def optimizeJS (env : BuildEnv) (inputPath outputPath : String) :
    Except String FileRecord × List LogEvent :=
  match env.jsOf inputPath with
  | .error _ => (.error ("Failed to optimize JavaScript: " ++ inputPath), [])
  | .ok code =>
    if jsFalsy code then
      (.error ("Failed to optimize JavaScript: " ++ inputPath), [])
    else
      (.ok { path := outputPath, size := (code.getD "").utf8ByteSize },
       [⟨.info, "Optimized JavaScript", inputPath⟩])

/-- Embedding of `copyFile` (lines 365–384). -/
def copyFile (env : BuildEnv) (source destination : String) :
    Except String FileRecord × List LogEvent :=
  match env.htmlOf source with
  | .error _ => (.error ("Failed to copy file: " ++ source), [])
  | .ok size =>
    (.ok { path := destination, size := size },
     [⟨.info, "Copied file", source⟩])

/-! ## Discovery (the `glob` calls, lines 405–412 / 438–442 / 463–473 /
494–498)

The source tree is a list of file paths relative to `CONFIG.SOURCE_DIR`.
A pattern `**/*<ext>` matches exactly the files whose `path.extname` is
`<ext>`; the `ignore` lists are directory prefixes. -/

/-- The shared `ignore` globs (`node_modules/**`, `dist/**`, `build/**`,
`.git/**`). -/
def ignoredPath (p : String) : Bool :=
  strStartsWith p "node_modules/" || strStartsWith p "dist/" ||
    strStartsWith p "build/" || strStartsWith p ".git/"

/-- The JS discovery additionally ignores `scripts/**` (lines 465–471). -/
def jsIgnoredPath (p : String) : Bool :=
  ignoredPath p || strStartsWith p "scripts/"

/-- Image discovery: one `**/*<ext>` pattern per supported format
(lines 405–412). -/
def discoverImageFiles (tree : List String) : List String :=
  tree.filter (fun p => !ignoredPath p && strMem (extname p) SUPPORTED_IMAGE_FORMATS)

/-- CSS discovery (`**/*.css`, lines 438–442). -/
def discoverCssFiles (tree : List String) : List String :=
  tree.filter (fun p => !ignoredPath p && extname p = ".css")

/-- JS discovery (`**/*.js`, lines 463–473). -/
def discoverJsFiles (tree : List String) : List String :=
  tree.filter (fun p => !jsIgnoredPath p && extname p = ".js")

/-- HTML discovery (`**/*.html`, lines 494–498). -/
def discoverHtmlFiles (tree : List String) : List String :=
  tree.filter (fun p => !ignoredPath p && extname p = ".html")

/-! ## The per-kind loops and the aggregator (`processAssets`,
lines 386–556) -/

/-- The output directory `processAssets` computes for one image
(lines 418–422). -/
def imageOutputDir (p : String) : String :=
  joinPath CONFIG.BUILD_DIR (dirname p)

/-- The mirrored output path for CSS/JS/HTML files (lines 448–449 etc.). -/
def mirroredOutputPath (p : String) : String :=
  joinPath CONFIG.BUILD_DIR p

/-- The image loop (lines 416–436): per-file `try`/`catch`, a failure
logs `Image optimization failed` and pushes one `{type: 'image', path,
error}` record, then the loop continues. -/
def runImageLoop (env : BuildEnv) : List String → List AssetRecord × List ErrorRecord × List LogEvent
  | [] => ([], [], [])
  | p :: rest =>
    let next := runImageLoop env rest
    match optimizeImage env p (imageOutputDir p) with
    | (.ok rs, ls) => (rs ++ next.1, next.2.1, ls ++ next.2.2)
    | (.error m, ls) =>
      (next.1,
       { type := "image", path := p, error := m } :: next.2.1,
       (ls ++ [⟨.error, "Image optimization failed", p⟩]) ++ next.2.2)

/-- The common shape of the CSS (lines 446–461), JS (lines 477–492) and
HTML (lines 502–517) loops: per-file `try`/`catch`, a failure logs
`failMsg` and pushes one `{type, path, error}` record, then the loop
continues. -/
def runSimpleLoop (ty failMsg : String)
    (transform : String → Except String FileRecord × List LogEvent) :
    List String → List FileRecord × List ErrorRecord × List LogEvent
  | [] => ([], [], [])
  | p :: rest =>
    let next := runSimpleLoop ty failMsg transform rest
    match transform p with
    | (.ok r, ls) => (r :: next.1, next.2.1, ls ++ next.2.2)
    | (.error m, ls) =>
      (next.1,
       { type := ty, path := p, error := m } :: next.2.1,
       (ls ++ [⟨.error, failMsg, p⟩]) ++ next.2.2)

/-- The `results` object of `processAssets` (lines 388–395); `other` is
declared but never pushed to in the script. -/
structure RunResults where
  images : List AssetRecord
  css : List FileRecord
  js : List FileRecord
  html : List FileRecord
  other : List FileRecord
  errors : List ErrorRecord
deriving DecidableEq

/-- Embedding of `processAssets` (lines 386–556) on a source tree:
discover each kind, run its loop, and aggregate records, errors (in the
push order image → css → js → html) and log events. -/
def processAssets (env : BuildEnv) (tree : List String) : RunResults × List LogEvent :=
  let imageFiles := discoverImageFiles tree
  let img := runImageLoop env imageFiles
  let cssFiles := discoverCssFiles tree
  let css := runSimpleLoop "css" "CSS optimization failed"
    (fun p => optimizeCSS env p (mirroredOutputPath p)) cssFiles
  let jsFiles := discoverJsFiles tree
  let js := runSimpleLoop "js" "JavaScript optimization failed"
    (fun p => optimizeJS env p (mirroredOutputPath p)) jsFiles
  let htmlFiles := discoverHtmlFiles tree
  let html := runSimpleLoop "html" "HTML copy failed"
    (fun p => copyFile env p (mirroredOutputPath p)) htmlFiles
  ({ images := img.1
     css := css.1
     js := js.1
     html := html.1
     other := []
     errors := img.2.1 ++ css.2.1 ++ js.2.1 ++ html.2.1 },
   img.2.2 ++ css.2.2 ++ js.2.2 ++ html.2.2)

/-- One per-kind line of the final summary. -/
structure KindSummary where
  count : Nat
  totalSize : Nat
deriving DecidableEq

/-- The final summary object (lines 521–540; the wall-clock `duration`
string is omitted). -/
structure RunSummary where
  images : KindSummary
  css : KindSummary
  js : KindSummary
  html : KindSummary
  errors : Nat
deriving DecidableEq

/-- Embedding of the summary computation (lines 521–540): each kind's
`count` is the **length of its record list** and `totalSize` the sum of
the records' sizes; `errors` is the error-list length. -/
def summarize (r : RunResults) : RunSummary :=
  { images :=
      { count := r.images.length
        totalSize := (r.images.map AssetRecord.size).sum }
    css :=
      { count := r.css.length
        totalSize := (r.css.map FileRecord.size).sum }
    js :=
      { count := r.js.length
        totalSize := (r.js.map FileRecord.size).sum }
    html :=
      { count := r.html.length
        totalSize := (r.html.map FileRecord.size).sum }
    errors := r.errors.length }

/-- Whether setup/discovery completed: `.failure` models an exception
escaping `processAssets` (inaccessible source root, `ensureDirectory`
on the build dir failing, a `glob` call throwing) before/while per-file
processing, which `main` catches at lines 573–576. -/
inductive SetupOutcome where
  | success
  | failure (msg : String)
deriving DecidableEq

/-- Embedding of `main` (lines 558–577), reduced to the process exit
status: on a completed run, `1` when `results.errors.length > 0` and `0`
otherwise; on a fatal setup failure, `1`. -/
def mainExitCode (env : BuildEnv) (setup : SetupOutcome) (tree : List String) : Nat :=
  match setup with
  | .failure _ => 1
  | .success =>
    if ((processAssets env tree).1.errors).length > 0 then 1 else 0

/-! ## Per-file outcome views and generic list lemmas -/

/-- `true` on `.error`. -/
def isErr {α : Type} : Except String α → Bool
  | .error _ => true
  | .ok _ => false

/-- Structural concatenation of per-element lists. -/
def listFlat {α β : Type} (f : α → List β) : List α → List β
  | [] => []
  | a :: as => f a ++ listFlat f as

/-- The asset records one image file contributes to the run (none when
its transform throws). -/
def imgRecords (env : BuildEnv) (p : String) : List AssetRecord :=
  match (optimizeImage env p (imageOutputDir p)).1 with
  | .ok rs => rs
  | .error _ => []

/-- The error records one image file contributes to the run. -/
def imgErrOf (env : BuildEnv) (p : String) : List ErrorRecord :=
  match (optimizeImage env p (imageOutputDir p)).1 with
  | .ok _ => []
  | .error m => [{ type := "image", path := p, error := m }]

/-- The log events one image file causes (the transform's own logs plus
the catch-site error log). -/
def imgLogsOf (env : BuildEnv) (p : String) : List LogEvent :=
  match optimizeImage env p (imageOutputDir p) with
  | (.ok _, ls) => ls
  | (.error _, ls) => ls ++ [⟨.error, "Image optimization failed", p⟩]

/-- The file records one CSS/JS/HTML file contributes. -/
def simpleRecOf (transform : String → Except String FileRecord × List LogEvent)
    (p : String) : List FileRecord :=
  match (transform p).1 with
  | .ok r => [r]
  | .error _ => []

/-- The error records one CSS/JS/HTML file contributes. -/
def simpleErrOf (ty : String)
    (transform : String → Except String FileRecord × List LogEvent)
    (p : String) : List ErrorRecord :=
  match (transform p).1 with
  | .ok _ => []
  | .error m => [{ type := ty, path := p, error := m }]

/-- The log events one CSS/JS/HTML file causes. -/
def simpleLogsOf (failMsg : String)
    (transform : String → Except String FileRecord × List LogEvent)
    (p : String) : List LogEvent :=
  match transform p with
  | (.ok _, ls) => ls
  | (.error _, ls) => ls ++ [⟨.error, failMsg, p⟩]

theorem runImageLoop_eq (env : BuildEnv) (files : List String) :
    runImageLoop env files =
      (listFlat (imgRecords env) files,
       listFlat (imgErrOf env) files,
       listFlat (imgLogsOf env) files) := by
  induction files with
  | nil => rfl
  | cons p rest ih =>
    simp only [runImageLoop, ih, listFlat, imgRecords, imgErrOf, imgLogsOf]
    rcases h : optimizeImage env p (imageOutputDir p) with ⟨res, ls⟩
    cases res <;> simp [h]

theorem runSimpleLoop_eq (ty failMsg : String)
    (transform : String → Except String FileRecord × List LogEvent)
    (files : List String) :
    runSimpleLoop ty failMsg transform files =
      (listFlat (simpleRecOf transform) files,
       listFlat (simpleErrOf ty transform) files,
       listFlat (simpleLogsOf failMsg transform) files) := by
  induction files with
  | nil => rfl
  | cons p rest ih =>
    simp only [runSimpleLoop, ih, listFlat, simpleRecOf, simpleErrOf, simpleLogsOf]
    rcases h : transform p with ⟨res, ls⟩
    cases res <;> simp [h]

theorem mem_listFlat {α β : Type} (f : α → List β) (l : List α) (b : β) :
    b ∈ listFlat f l ↔ ∃ a ∈ l, b ∈ f a := by
  induction l with
  | nil => simp [listFlat]
  | cons a as ih => simp [listFlat, ih, List.mem_append]

theorem length_listFlat {α β : Type} (f : α → List β) (l : List α) :
    (listFlat f l).length = (l.map (fun a => (f a).length)).sum := by
  induction l with
  | nil => rfl
  | cons a as ih => simp [listFlat, ih]

theorem countP_listFlat {α β : Type} (f : α → List β) (pr : β → Bool) (l : List α) :
    (listFlat f l).countP pr = (l.map (fun a => (f a).countP pr)).sum := by
  induction l with
  | nil => rfl
  | cons a as ih => simp [listFlat, ih, List.countP_append]

theorem sum_map_single {α : Type} [DecidableEq α] (l : List α) (g : α → Nat)
    (p : α) (hnd : l.Nodup) (h : ∀ q ∈ l, q ≠ p → g q = 0) :
    (l.map g).sum = if p ∈ l then g p else 0 := by
  induction l with
  | nil => simp
  | cons a as ih =>
    rcases List.nodup_cons.mp hnd with ⟨hna, hnd'⟩
    by_cases hap : a = p
    · subst hap
      have hz : ∀ q ∈ as, g q = 0 := fun q hq =>
        h q (List.mem_cons_of_mem _ hq) (fun hqa => hna (hqa ▸ hq))
      have : (as.map g).sum = 0 :=
        List.sum_eq_zero (by simpa using fun q hq => hz q hq)
      simp [this]
    · have ha0 : g a = 0 := h a (List.mem_cons_self _ _) hap
      have hrec := ih hnd' (fun q hq hqp => h q (List.mem_cons_of_mem _ hq) hqp)
      by_cases hpin : p ∈ as
      · simp [ha0, hrec, List.mem_cons, hpin]
      · have hno : ¬(p = a ∨ p ∈ as) := by
          rintro (rfl | hc)
          · exact hap rfl
          · exact hpin hc
        have hpa : ¬p = a := fun hpa => hno (Or.inl hpa)
        simp [ha0, hrec, List.mem_cons, hpin, hpa]

theorem countP_not_split {α : Type} (f : α → Bool) (l : List α) :
    l.countP f + l.countP (fun a => !f a) = l.length := by
  induction l with
  | nil => rfl
  | cons a as ih =>
    cases h : f a <;> simp [List.countP_cons, h, ← ih] <;> omega

/-! ## Kinds and run-level accounting -/

/-- The four transform kinds `processAssets` loops over. -/
inductive AssetKind where
  | image
  | css
  | js
  | html
deriving DecidableEq

/-- The discovery predicate of each kind (the glob pattern plus its
`ignore` list). -/
def kindMatches : AssetKind → String → Bool
  | .image, p => !ignoredPath p && strMem (extname p) SUPPORTED_IMAGE_FORMATS
  | .css, p => !ignoredPath p && extname p = ".css"
  | .js, p => !jsIgnoredPath p && extname p = ".js"
  | .html, p => !ignoredPath p && extname p = ".html"

/-- The discovered file list of each kind. -/
def kindFiles (tree : List String) : AssetKind → List String
  | .image => discoverImageFiles tree
  | .css => discoverCssFiles tree
  | .js => discoverJsFiles tree
  | .html => discoverHtmlFiles tree

theorem kindFiles_eq_filter (tree : List String) (k : AssetKind) :
    kindFiles tree k = tree.filter (kindMatches k) := by
  cases k <;> rfl

/-- Every file discovered by every kind, in processing order. -/
def allDiscovered (tree : List String) : List String :=
  kindFiles tree .image ++ kindFiles tree .css ++
    kindFiles tree .js ++ kindFiles tree .html

/-- Whether the kind's transform of `p` throws. -/
def kindFails (env : BuildEnv) : AssetKind → String → Bool
  | .image, p => isErr (optimizeImage env p (imageOutputDir p)).1
  | .css, p => isErr (optimizeCSS env p (mirroredOutputPath p)).1
  | .js, p => isErr (optimizeJS env p (mirroredOutputPath p)).1
  | .html, p => isErr (copyFile env p (mirroredOutputPath p)).1

/-- The error records file `p` contributes when processed by kind `k`. -/
def kindErrOf (env : BuildEnv) : AssetKind → String → List ErrorRecord
  | .image, p => imgErrOf env p
  | .css, p => simpleErrOf "css" (fun q => optimizeCSS env q (mirroredOutputPath q)) p
  | .js, p => simpleErrOf "js" (fun q => optimizeJS env q (mirroredOutputPath q)) p
  | .html, p => simpleErrOf "html" (fun q => copyFile env q (mirroredOutputPath q)) p

/-- How many records file `p` contributes to its kind's result list. -/
def kindContributedCount (env : BuildEnv) : AssetKind → String → Nat
  | .image, p => (imgRecords env p).length
  | k, p => if kindFails env k p then 0 else 1

/-- How many error records of the whole run carry path `p`. -/
def errorCountFor (r : RunResults) (p : String) : Nat :=
  r.errors.countP (fun e => decide (e.path = p))

theorem processAssets_errors (env : BuildEnv) (tree : List String) :
    (processAssets env tree).1.errors =
      listFlat (kindErrOf env .image) (kindFiles tree .image) ++
      listFlat (kindErrOf env .css) (kindFiles tree .css) ++
      listFlat (kindErrOf env .js) (kindFiles tree .js) ++
      listFlat (kindErrOf env .html) (kindFiles tree .html) := by
  simp only [processAssets, runImageLoop_eq, runSimpleLoop_eq]
  rfl

theorem processAssets_images (env : BuildEnv) (tree : List String) :
    (processAssets env tree).1.images =
      listFlat (imgRecords env) (kindFiles tree .image) := by
  simp [processAssets, runImageLoop_eq, kindFiles]

theorem processAssets_css (env : BuildEnv) (tree : List String) :
    (processAssets env tree).1.css =
      listFlat (simpleRecOf (fun q => optimizeCSS env q (mirroredOutputPath q)))
        (kindFiles tree .css) := by
  simp [processAssets, runSimpleLoop_eq, kindFiles]

theorem processAssets_js (env : BuildEnv) (tree : List String) :
    (processAssets env tree).1.js =
      listFlat (simpleRecOf (fun q => optimizeJS env q (mirroredOutputPath q)))
        (kindFiles tree .js) := by
  simp [processAssets, runSimpleLoop_eq, kindFiles]

theorem processAssets_html (env : BuildEnv) (tree : List String) :
    (processAssets env tree).1.html =
      listFlat (simpleRecOf (fun q => copyFile env q (mirroredOutputPath q)))
        (kindFiles tree .html) := by
  simp [processAssets, runSimpleLoop_eq, kindFiles]

theorem processAssets_logs (env : BuildEnv) (tree : List String) :
    (processAssets env tree).2 =
      listFlat (imgLogsOf env) (kindFiles tree .image) ++
      listFlat (simpleLogsOf "CSS optimization failed"
        (fun q => optimizeCSS env q (mirroredOutputPath q))) (kindFiles tree .css) ++
      listFlat (simpleLogsOf "JavaScript optimization failed"
        (fun q => optimizeJS env q (mirroredOutputPath q))) (kindFiles tree .js) ++
      listFlat (simpleLogsOf "HTML copy failed"
        (fun q => copyFile env q (mirroredOutputPath q))) (kindFiles tree .html) := by
  simp [processAssets, runImageLoop_eq, runSimpleLoop_eq, kindFiles]

theorem kindErrOf_shape (env : BuildEnv) (k : AssetKind) (q : String) :
    (kindFails env k q = false ∧ kindErrOf env k q = []) ∨
    (kindFails env k q = true ∧
      ∃ e, kindErrOf env k q = [e] ∧ e.path = q) := by
  cases k
  case image =>
    simp only [kindErrOf, kindFails, imgErrOf]
    cases h : (optimizeImage env q (imageOutputDir q)).1 <;> simp [h, isErr]
  case css =>
    simp only [kindErrOf, kindFails, simpleErrOf]
    cases h : (optimizeCSS env q (mirroredOutputPath q)).1 <;> simp [h, isErr]
  case js =>
    simp only [kindErrOf, kindFails, simpleErrOf]
    cases h : (optimizeJS env q (mirroredOutputPath q)).1 <;> simp [h, isErr]
  case html =>
    simp only [kindErrOf, kindFails, simpleErrOf]
    cases h : (copyFile env q (mirroredOutputPath q)).1 <;> simp [h, isErr]

theorem countP_kindErr_single (env : BuildEnv) (k : AssetKind) (p q : String) :
    (kindErrOf env k q).countP (fun e => decide (e.path = p)) =
      if q = p ∧ kindFails env k q = true then 1 else 0 := by
  rcases kindErrOf_shape env k q with ⟨hf, he⟩ | ⟨hf, e, he, hp⟩
  · simp [he, hf]
  · rw [he]
    by_cases hqp : q = p
    · subst hqp
      simp [List.countP_cons, hp, hf]
    · simp [List.countP_cons, hp, hqp, hf]

theorem countP_kindErr (env : BuildEnv) (k : AssetKind) (p : String)
    (files : List String) (hnd : files.Nodup) :
    (listFlat (kindErrOf env k) files).countP (fun e => decide (e.path = p)) =
      if p ∈ files ∧ kindFails env k p = true then 1 else 0 := by
  rw [countP_listFlat]
  have hterm : ∀ q ∈ files, q ≠ p →
      ((kindErrOf env k q).countP (fun e => decide (e.path = p))) = 0 := by
    intro q _ hqp
    simp [countP_kindErr_single, hqp]
  rw [sum_map_single _ _ p hnd hterm]
  by_cases hp : p ∈ files
  · simp [hp, countP_kindErr_single]
  · simp [hp]

theorem nodup_kindFiles (tree : List String) (hnd : tree.Nodup) (k : AssetKind) :
    (kindFiles tree k).Nodup := by
  rw [kindFiles_eq_filter]
  exact hnd.filter _

theorem mem_kindFiles (tree : List String) (k : AssetKind) (p : String) :
    p ∈ kindFiles tree k ↔ p ∈ tree ∧ kindMatches k p = true := by
  rw [kindFiles_eq_filter]
  exact List.mem_filter

theorem kindMatches_unique (p : String) (k k' : AssetKind)
    (h : kindMatches k p = true) (h' : kindMatches k' p = true) : k = k' := by
  have himg : kindMatches .image p = true → kindMatches .css p = true → False := by
    simp only [kindMatches, Bool.and_eq_true, decide_eq_true_eq]
    rintro ⟨-, h1⟩ ⟨-, h2⟩
    rw [h2] at h1
    exact absurd h1 (by decide)
  have himgjs : kindMatches .image p = true → kindMatches .js p = true → False := by
    simp only [kindMatches, Bool.and_eq_true, decide_eq_true_eq]
    rintro ⟨-, h1⟩ ⟨-, h2⟩
    rw [h2] at h1
    exact absurd h1 (by decide)
  have himghtml : kindMatches .image p = true → kindMatches .html p = true → False := by
    simp only [kindMatches, Bool.and_eq_true, decide_eq_true_eq]
    rintro ⟨-, h1⟩ ⟨-, h2⟩
    rw [h2] at h1
    exact absurd h1 (by decide)
  have hcssjs : kindMatches .css p = true → kindMatches .js p = true → False := by
    simp only [kindMatches, Bool.and_eq_true, decide_eq_true_eq]
    rintro ⟨-, h1⟩ ⟨-, h2⟩
    rw [h1] at h2
    exact absurd h2 (by decide)
  have hcsshtml : kindMatches .css p = true → kindMatches .html p = true → False := by
    simp only [kindMatches, Bool.and_eq_true, decide_eq_true_eq]
    rintro ⟨-, h1⟩ ⟨-, h2⟩
    rw [h1] at h2
    exact absurd h2 (by decide)
  have hjshtml : kindMatches .js p = true → kindMatches .html p = true → False := by
    simp only [kindMatches, Bool.and_eq_true, decide_eq_true_eq]
    rintro ⟨-, h1⟩ ⟨-, h2⟩
    rw [h1] at h2
    exact absurd h2 (by decide)
  cases k <;> cases k' <;> first
    | rfl
    | exact (himg h h').elim
    | exact (himg h' h).elim
    | exact (himgjs h h').elim
    | exact (himgjs h' h).elim
    | exact (himghtml h h').elim
    | exact (himghtml h' h).elim
    | exact (hcssjs h h').elim
    | exact (hcssjs h' h).elim
    | exact (hcsshtml h h').elim
    | exact (hcsshtml h' h).elim
    | exact (hjshtml h h').elim
    | exact (hjshtml h' h).elim

theorem kindFiles_disjoint (tree : List String) (k k' : AssetKind) (p : String)
    (h : p ∈ kindFiles tree k) (h' : p ∈ kindFiles tree k') : k = k' :=
  kindMatches_unique p k k' ((mem_kindFiles tree k p).mp h).2
    ((mem_kindFiles tree k' p).mp h').2

/-- Per-path error count of a whole run: `1` when some kind discovered
`p` and its transform failed, `0` otherwise. -/
theorem errorCountFor_processAssets (env : BuildEnv) (tree : List String)
    (p : String) (hnd : tree.Nodup) :
    errorCountFor (processAssets env tree).1 p =
      (if p ∈ kindFiles tree .image ∧ kindFails env .image p = true then 1 else 0) +
      (if p ∈ kindFiles tree .css ∧ kindFails env .css p = true then 1 else 0) +
      (if p ∈ kindFiles tree .js ∧ kindFails env .js p = true then 1 else 0) +
      (if p ∈ kindFiles tree .html ∧ kindFails env .html p = true then 1 else 0) := by
  rw [errorCountFor, processAssets_errors, List.countP_append, List.countP_append,
    List.countP_append, countP_kindErr env .image p _ (nodup_kindFiles tree hnd .image),
    countP_kindErr env .css p _ (nodup_kindFiles tree hnd .css),
    countP_kindErr env .js p _ (nodup_kindFiles tree hnd .js),
    countP_kindErr env .html p _ (nodup_kindFiles tree hnd .html)]

/-! ## Branch selection and non-emptiness of successful image output -/

theorem strMem_iff_mem (s : String) (l : List String) :
    strMem s l = true ↔ s ∈ l := by
  induction l with
  | nil => simp [strMem]
  | cons t rest ih =>
    by_cases hst : s = t <;> simp [strMem, hst, ih]

theorem lowerStr_of_supported (e : String)
    (h : strMem e SUPPORTED_IMAGE_FORMATS = true) : lowerStr e = e := by
  have hm := (strMem_iff_mem e _).mp h
  simp only [SUPPORTED_IMAGE_FORMATS, List.mem_cons, List.mem_singleton] at hm
  rcases hm with rfl | rfl | rfl | rfl | rfl | h0 <;> first
    | rfl
    | exact absurd h0 (by simp)

theorem optimizeImage_eq_svg (env : BuildEnv) (p d : String)
    (hext : extname p = ".svg") :
    optimizeImage env p d = optimizeImageSvg env p d ".svg" := by
  simp [optimizeImage, hext]
  rfl

theorem optimizeImage_eq_raster (env : BuildEnv) (p d : String)
    (hsup : strMem (extname p) SUPPORTED_IMAGE_FORMATS = true)
    (hsvg : extname p ≠ ".svg") :
    optimizeImage env p d = optimizeImageRaster env p d (extname p) := by
  have hl : lowerStr (extname p) = extname p := lowerStr_of_supported _ hsup
  simp [optimizeImage, hl, hsup, hsvg]

theorem optimizeImageRaster_ok (env : BuildEnv) (p d ext : String)
    (data : RasterData) (hr : env.rasterOf p = .ok data) :
    ∃ rs, optimizeImageRaster env p d ext = (.ok rs, [⟨.info, "Optimized image", p⟩]) ∧
      rs ≠ [] ∧
      rs.head? = some
        { path := joinPath d (basenameFor p ext ++ ".webp")
          format := "webp"
          size := data.webpSize
          width := some (sharpResizeWidth
            (min data.naturalWidth CONFIG.MAX_IMAGE_WIDTH) data.naturalWidth) } := by
  simp only [optimizeImageRaster, hr]
  by_cases h1 : ext = ".jpg" ∨ ext = ".jpeg"
  · simp [h1]
  · by_cases h2 : ext = ".png" <;> simp [h1, h2]

theorem optimizeImage_ok_ne_nil (env : BuildEnv) (p d : String)
    (hsup : strMem (extname p) SUPPORTED_IMAGE_FORMATS = true) :
    ∀ rs logs, optimizeImage env p d = (.ok rs, logs) → rs ≠ [] := by
  intro rs logs h
  by_cases hsvg : extname p = ".svg"
  · rw [optimizeImage_eq_svg env p d hsvg] at h
    cases hr : env.svgReadOf p
    · simp [optimizeImageSvg, hr] at h
    · simp only [optimizeImageSvg, hr, Prod.mk.injEq, Except.ok.injEq] at h
      rw [← h.1]
      simp
  · rw [optimizeImage_eq_raster env p d hsup hsvg] at h
    cases hr : env.rasterOf p
    · simp [optimizeImageRaster, hr] at h
    · rcases optimizeImageRaster_ok env p d (extname p) _ hr with ⟨rs', heq, hne, -⟩
      rw [heq] at h
      simp only [Prod.mk.injEq, Except.ok.injEq] at h
      rw [← h.1]
      exact hne

/-! ## The per-file processing guarantee -/

/-- Kind `k`'s successful output records of file `q` appear in the run's
result list of that kind. -/
def kindRecordsIn (env : BuildEnv) (tree : List String) :
    AssetKind → String → Prop
  | .image, q => ∀ r ∈ imgRecords env q, r ∈ (processAssets env tree).1.images
  | .css, q => ∀ r, (optimizeCSS env q (mirroredOutputPath q)).1 = .ok r →
      r ∈ (processAssets env tree).1.css
  | .js, q => ∀ r, (optimizeJS env q (mirroredOutputPath q)).1 = .ok r →
      r ∈ (processAssets env tree).1.js
  | .html, q => ∀ r, (copyFile env q (mirroredOutputPath q)).1 = .ok r →
      r ∈ (processAssets env tree).1.html

/-- File `q` of kind `k` was attempted and its own outcome is recorded:
on failure exactly one run-level error record carries its path, on
success its records are in the run's results. -/
def stillProcessed (env : BuildEnv) (tree : List String)
    (k : AssetKind) (q : String) : Prop :=
  (kindFails env k q = true → errorCountFor (processAssets env tree).1 q = 1) ∧
  (kindFails env k q = false → kindRecordsIn env tree k q)

theorem notMem_kindFiles_of_other (tree : List String) (k k' : AssetKind)
    (q : String) (hq : q ∈ kindFiles tree k) (hne : k' ≠ k) :
    q ∉ kindFiles tree k' :=
  fun hm => hne (kindFiles_disjoint tree k' k q hm hq)

theorem errorCountFor_of_fails (env : BuildEnv) (tree : List String)
    (k : AssetKind) (q : String) (hnd : tree.Nodup)
    (hq : q ∈ kindFiles tree k) (hfail : kindFails env k q = true) :
    errorCountFor (processAssets env tree).1 q = 1 := by
  rw [errorCountFor_processAssets env tree q hnd]
  cases k
  case image =>
    have h1 := notMem_kindFiles_of_other tree .image .css q hq (by simp)
    have h2 := notMem_kindFiles_of_other tree .image .js q hq (by simp)
    have h3 := notMem_kindFiles_of_other tree .image .html q hq (by simp)
    simp [hq, hfail, h1, h2, h3]
  case css =>
    have h1 := notMem_kindFiles_of_other tree .css .image q hq (by simp)
    have h2 := notMem_kindFiles_of_other tree .css .js q hq (by simp)
    have h3 := notMem_kindFiles_of_other tree .css .html q hq (by simp)
    simp [hq, hfail, h1, h2, h3]
  case js =>
    have h1 := notMem_kindFiles_of_other tree .js .image q hq (by simp)
    have h2 := notMem_kindFiles_of_other tree .js .css q hq (by simp)
    have h3 := notMem_kindFiles_of_other tree .js .html q hq (by simp)
    simp [hq, hfail, h1, h2, h3]
  case html =>
    have h1 := notMem_kindFiles_of_other tree .html .image q hq (by simp)
    have h2 := notMem_kindFiles_of_other tree .html .css q hq (by simp)
    have h3 := notMem_kindFiles_of_other tree .html .js q hq (by simp)
    simp [hq, hfail, h1, h2, h3]

theorem errorCountFor_of_no_fail (env : BuildEnv) (tree : List String)
    (q : String) (hnd : tree.Nodup)
    (h : ∀ k, q ∈ kindFiles tree k → kindFails env k q = false) :
    errorCountFor (processAssets env tree).1 q = 0 := by
  rw [errorCountFor_processAssets env tree q hnd]
  have hterm : ∀ k, ¬(q ∈ kindFiles tree k ∧ kindFails env k q = true) := by
    rintro k ⟨hm, hf⟩
    rw [h k hm] at hf
    cases hf
  simp [hterm]

theorem stillProcessed_of_mem (env : BuildEnv) (tree : List String)
    (k : AssetKind) (q : String) (hnd : tree.Nodup)
    (hq : q ∈ kindFiles tree k) : stillProcessed env tree k q := by
  constructor
  · intro hfail
    exact errorCountFor_of_fails env tree k q hnd hq hfail
  · intro hok
    cases k
    case image =>
      intro r hr
      rw [processAssets_images]
      exact (mem_listFlat _ _ _).mpr ⟨q, hq, hr⟩
    case css =>
      intro r hr
      rw [processAssets_css]
      refine (mem_listFlat _ _ _).mpr ⟨q, hq, ?_⟩
      simp [simpleRecOf, hr]
    case js =>
      intro r hr
      rw [processAssets_js]
      refine (mem_listFlat _ _ _).mpr ⟨q, hq, ?_⟩
      simp [simpleRecOf, hr]
    case html =>
      intro r hr
      rw [processAssets_html]
      refine (mem_listFlat _ _ _).mpr ⟨q, hq, ?_⟩
      simp [simpleRecOf, hr]

/-! ## Summary counting lemmas -/

/-- Per-kind `count` field of the summary. -/
def kindSummaryCount (s : RunSummary) : AssetKind → Nat
  | .image => s.images.count
  | .css => s.css.count
  | .js => s.js.count
  | .html => s.html.count

theorem simpleRecOf_length
    (transform : String → Except String FileRecord × List LogEvent) (q : String) :
    (simpleRecOf transform q).length = if isErr (transform q).1 then 0 else 1 := by
  cases h : (transform q).1 <;> simp [simpleRecOf, h, isErr]

theorem imgRecords_of_fails (env : BuildEnv) (q : String)
    (h : kindFails env .image q = true) : imgRecords env q = [] := by
  cases hq : (optimizeImage env q (imageOutputDir q)).1
  · simp [imgRecords, hq]
  · simp [kindFails, hq, isErr] at h

theorem sum_map_if01 {α : Type} (l : List α) (f : α → Bool) :
    (l.map (fun a => if f a then 0 else 1)).sum =
      (l.filter (fun a => !f a)).length := by
  induction l with
  | nil => rfl
  | cons a as ih =>
    cases h : f a
    · simp [List.filter_cons, h, ih]
      omega
    · simp [List.filter_cons, h, ih]

theorem sum_map_filter_eq {α : Type} (l : List α) (pr : α → Bool) (g : α → Nat)
    (h : ∀ a ∈ l, pr a = false → g a = 0) :
    ((l.filter pr).map g).sum = (l.map g).sum := by
  induction l with
  | nil => rfl
  | cons a as ih =>
    have ih' := ih (fun a ha hpa => h a (List.mem_cons_of_mem _ ha) hpa)
    cases hpa : pr a
    · simp [List.filter_cons, hpa, ih', h a (List.mem_cons_self _ _) hpa]
    · simp [List.filter_cons, hpa, ih']

theorem countP_congr_mem {α : Type} (l : List α) (f g : α → Bool)
    (h : ∀ a ∈ l, f a = g a) : l.countP f = l.countP g := by
  induction l with
  | nil => rfl
  | cons a as ih =>
    have := h a (List.mem_cons_self _ _)
    simp [List.countP_cons, this,
      ih (fun a ha => h a (List.mem_cons_of_mem _ ha))]

theorem countP_decide_eq_of_nodup {α : Type} [DecidableEq α] (l : List α)
    (hnd : l.Nodup) (p : α) (hp : p ∈ l) :
    l.countP (fun q => decide (q = p)) = 1 := by
  induction l with
  | nil => cases hp
  | cons a as ih =>
    rcases List.nodup_cons.mp hnd with ⟨hna, hnd'⟩
    rcases List.mem_cons.mp hp with rfl | hpas
    · have hz : as.countP (fun q => decide (q = p)) = 0 :=
        List.countP_eq_zero.mpr (by
          intro q hq
          simp only [decide_eq_true_eq]
          intro hqa
          exact hna (hqa ▸ hq))
      simp [List.countP_cons, hz]
    · have hap : ¬(a = p) := fun hap => hna (hap ▸ hpas)
      simp [List.countP_cons, hap, ih hnd' hpas]

theorem filter_not_length_of_unique_fail {α : Type} [DecidableEq α]
    (l : List α) (f : α → Bool) (p : α) (hnd : l.Nodup) (hp : p ∈ l)
    (hfp : f p = true) (hothers : ∀ q ∈ l, q ≠ p → f q = false) :
    (l.filter (fun q => !f q)).length = l.length - 1 := by
  have hcong : l.countP f = l.countP (fun q => decide (q = p)) := by
    apply countP_congr_mem
    intro q hq
    by_cases hqp : q = p
    · subst hqp
      simp [hfp]
    · simp [hothers q hq hqp, hqp]
  have h1 : l.countP f = 1 := by
    rw [hcong]
    exact countP_decide_eq_of_nodup l hnd p hp
  have hsplit := countP_not_split f l
  rw [← List.countP_eq_length_filter]
  omega

theorem summarize_images_count (env : BuildEnv) (tree : List String) :
    (summarize (processAssets env tree).1).images.count =
      ((kindFiles tree .image).map (fun q => (imgRecords env q).length)).sum := by
  simp [summarize, processAssets_images, length_listFlat]

theorem summarize_css_count (env : BuildEnv) (tree : List String) :
    (summarize (processAssets env tree).1).css.count =
      ((kindFiles tree .css).filter (fun q => !kindFails env .css q)).length := by
  simp only [summarize, processAssets_css, length_listFlat]
  rw [← sum_map_if01]
  congr 1
  apply List.map_congr_left
  intro q _
  simp [simpleRecOf_length, kindFails]

theorem summarize_js_count (env : BuildEnv) (tree : List String) :
    (summarize (processAssets env tree).1).js.count =
      ((kindFiles tree .js).filter (fun q => !kindFails env .js q)).length := by
  simp only [summarize, processAssets_js, length_listFlat]
  rw [← sum_map_if01]
  congr 1
  apply List.map_congr_left
  intro q _
  simp [simpleRecOf_length, kindFails]

theorem summarize_html_count (env : BuildEnv) (tree : List String) :
    (summarize (processAssets env tree).1).html.count =
      ((kindFiles tree .html).filter (fun q => !kindFails env .html q)).length := by
  simp only [summarize, processAssets_html, length_listFlat]
  rw [← sum_map_if01]
  congr 1
  apply List.map_congr_left
  intro q _
  simp [simpleRecOf_length, kindFails]

theorem mainExitCode_of_errors (env : BuildEnv) (tree : List String)
    (h : 0 < ((processAssets env tree).1.errors).length) :
    mainExitCode env .success tree = 1 := by
  simp [mainExitCode, h]

theorem errors_pos_of_countFor (r : RunResults) (p : String)
    (h : errorCountFor r p = 1) : 0 < r.errors.length := by
  have := List.countP_le_length (fun e => decide (e.path = p)) (l := r.errors)
  rw [errorCountFor] at h
  omega

/-! ## Concrete environments and trees used to instantiate theorems -/

/-- A concrete little environment: decoding fails for `img/a.jpg`,
terser returns no code for `js/empty.js`, everything else succeeds. -/
def envW : BuildEnv :=
  { rasterOf := fun p =>
      if p = "img/a.jpg" then .error "Input file is missing"
      else .ok { naturalWidth := 3000, webpSize := 100, jpegSize := 200, pngSize := 300 }
    svgReadOf := fun _ =>
      .ok { viewBox := some "0 0 24 24", ids := ["icon"],
            unusedNamespaces := ["xlink"], body := "<svg/>" }
    svgByteSize := fun doc => doc.body.utf8ByteSize
    cssOf := fun _ => .ok 42
    jsOf := fun p => if p = "js/empty.js" then .ok none else .ok (some "console.log(1)")
    htmlOf := fun _ => .ok 7 }

/-- A concrete source tree with one failing image among two, plus one
file of each other kind. -/
def treeW : List String :=
  ["img/a.jpg", "img/b.jpg", "logo.svg", "style.css", "app.js", "index.html"]

/-! ## The claims -/

/-- C1: the process exit status is non-zero if and only if at least one
per-file error record was produced during the run; an uncaught failure
during discovery or setup also yields a non-zero exit status. -/
theorem C1_exit_status (env : BuildEnv) (tree : List String) (m : String) :
    (mainExitCode env .success tree ≠ 0 ↔
      (processAssets env tree).1.errors ≠ []) ∧
    mainExitCode env (.failure m) tree = 1 := by
  constructor
  · by_cases h : (processAssets env tree).1.errors = []
    · simp [mainExitCode, h]
    · have hpos : 0 < ((processAssets env tree).1.errors).length :=
        List.length_pos.mpr h
      simp [mainExitCode, hpos, h]
  · rfl

/-- C2: for every run and every file whose transform fails, the error
list contains exactly one error record for that file, and every other
discovered file in every kind is still attempted (a per-file failure
never prevents processing of subsequent files). -/
theorem C2_failure_isolation (env : BuildEnv) (tree : List String)
    (k : AssetKind) (p : String) (hnd : tree.Nodup)
    (hp : p ∈ kindFiles tree k) (hfail : kindFails env k p = true) :
    errorCountFor (processAssets env tree).1 p = 1 ∧
    ∀ k' q, q ∈ kindFiles tree k' → stillProcessed env tree k' q :=
  ⟨errorCountFor_of_fails env tree k p hnd hp hfail,
   fun k' q hq => stillProcessed_of_mem env tree k' q hnd hq⟩

/-- Witness for C2 at a concrete failing image in a concrete tree. -/
theorem C2_failure_isolation_witness :
    (treeW.Nodup ∧ "img/a.jpg" ∈ kindFiles treeW .image ∧
      kindFails envW .image "img/a.jpg" = true) ∧
    (errorCountFor (processAssets envW treeW).1 "img/a.jpg" = 1 ∧
      ∀ k' q, q ∈ kindFiles treeW k' → stillProcessed envW treeW k' q) :=
  ⟨⟨by decide, by decide, by decide⟩,
   C2_failure_isolation envW treeW .image "img/a.jpg"
     (by decide) (by decide) (by decide)⟩

/-- `true` exactly on `console.*` call statements. -/
def isConsoleCall : JsStmt → Bool
  | .consoleCall _ => true
  | _ => false

/-- C7: with the options `optimizeJS` passes to terser, minification
removes every debugger statement and preserves every console call. -/
theorem C7_debugger_dropped_console_kept (prog : List JsStmt) :
    (∀ s ∈ terserMinifyStmts optimizeJSTerserOptions prog,
      s ≠ JsStmt.debuggerStmt) ∧
    (terserMinifyStmts optimizeJSTerserOptions prog).filter isConsoleCall =
      prog.filter isConsoleCall := by
  constructor
  · intro s hs hdbg
    rcases List.mem_filter.mp hs with ⟨-, hkeep⟩
    subst hdbg
    simp [terserKeepStmt, optimizeJSTerserOptions] at hkeep
  · induction prog with
    | nil => rfl
    | cons s rest ih =>
      cases s <;>
        simp [terserMinifyStmts, List.filter_cons, terserKeepStmt,
          optimizeJSTerserOptions, isConsoleCall] <;>
        simpa [terserMinifyStmts] using ih

/-- C9: an SVG input's `viewBox` attribute, when present, is preserved
unchanged in the SVG document `optimizeImage` writes. -/
theorem C9_viewBox_preserved (env : BuildEnv) (p : String) (doc : SvgDoc)
    (v : String) (hread : env.svgReadOf p = .ok doc)
    (hv : doc.viewBox = some v) :
    ∃ outDoc, optimizeImageSvgOutput env p = some outDoc ∧
      outDoc.viewBox = some v := by
  refine ⟨svgoOptimize optimizeImageSvgoFlags doc, ?_, ?_⟩
  · simp [optimizeImageSvgOutput, hread]
  · simp [svgoOptimize, optimizeImageSvgoFlags, hv]

/-- Witness for C9 at a concrete SVG document with a `viewBox`. -/
theorem C9_viewBox_preserved_witness :
    (envW.svgReadOf "logo.svg" =
        .ok { viewBox := some "0 0 24 24", ids := ["icon"],
              unusedNamespaces := ["xlink"], body := "<svg/>" }) ∧
    (∃ outDoc, optimizeImageSvgOutput envW "logo.svg" = some outDoc ∧
      outDoc.viewBox = some "0 0 24 24") :=
  ⟨rfl,
   C9_viewBox_preserved envW "logo.svg"
     { viewBox := some "0 0 24 24", ids := ["icon"],
       unusedNamespaces := ["xlink"], body := "<svg/>" }
     "0 0 24 24" rfl rfl⟩

/-- C4: for every supported raster input, the produced `.webp` rendition
has width at most `min(natural width, CONFIG.MAX_IMAGE_WIDTH)` and in
particular never exceeds the original width (no upscaling). -/
theorem C4_webp_width_clamped (env : BuildEnv) (p : String) (data : RasterData)
    (hext : extname p ∈ [".jpg", ".jpeg", ".png"])
    (hr : env.rasterOf p = .ok data) :
    ∃ rs logs, optimizeImage env p (imageOutputDir p) = (.ok rs, logs) ∧
      (∃ r ∈ rs, r.format = "webp") ∧
      ∀ r ∈ rs, r.format = "webp" →
        ∃ w, r.width = some w ∧
          w ≤ min data.naturalWidth CONFIG.MAX_IMAGE_WIDTH ∧
          w ≤ data.naturalWidth := by
  simp only [List.mem_cons, List.not_mem_nil, or_false] at hext
  rcases hext with h | h | h
  · have hsup : strMem (extname p) SUPPORTED_IMAGE_FORMATS = true := by
      rw [h]; decide
    have hsvg : extname p ≠ ".svg" := by rw [h]; decide
    rw [optimizeImage_eq_raster env p (imageOutputDir p) hsup hsvg, h]
    simp only [optimizeImageRaster, hr]
    rw [if_pos (Or.inl trivial)]
    refine ⟨_, _, rfl, ⟨_, List.mem_cons_self _ _, rfl⟩, ?_⟩
    intro r hrm hfmt
    rcases List.mem_cons.mp hrm with rfl | hrm2
    · exact ⟨_, rfl, min_le_left _ _, min_le_right _ _⟩
    · rcases List.mem_singleton.mp hrm2 with rfl
      simp at hfmt
  · have hsup : strMem (extname p) SUPPORTED_IMAGE_FORMATS = true := by
      rw [h]; decide
    have hsvg : extname p ≠ ".svg" := by rw [h]; decide
    rw [optimizeImage_eq_raster env p (imageOutputDir p) hsup hsvg, h]
    simp only [optimizeImageRaster, hr]
    rw [if_pos (Or.inr trivial)]
    refine ⟨_, _, rfl, ⟨_, List.mem_cons_self _ _, rfl⟩, ?_⟩
    intro r hrm hfmt
    rcases List.mem_cons.mp hrm with rfl | hrm2
    · exact ⟨_, rfl, min_le_left _ _, min_le_right _ _⟩
    · rcases List.mem_singleton.mp hrm2 with rfl
      simp at hfmt
  · have hsup : strMem (extname p) SUPPORTED_IMAGE_FORMATS = true := by
      rw [h]; decide
    have hsvg : extname p ≠ ".svg" := by rw [h]; decide
    rw [optimizeImage_eq_raster env p (imageOutputDir p) hsup hsvg, h]
    simp only [optimizeImageRaster, hr]
    rw [if_pos trivial]
    refine ⟨_, _, rfl, ⟨_, List.mem_cons_self _ _, rfl⟩, ?_⟩
    intro r hrm hfmt
    rcases List.mem_cons.mp hrm with rfl | hrm2
    · exact ⟨_, rfl, min_le_left _ _, min_le_right _ _⟩
    · rcases List.mem_singleton.mp hrm2 with rfl
      simp at hfmt

/-- Witness for C4 at a concrete JPEG with natural width 3000. -/
theorem C4_webp_width_clamped_witness :
    (extname "img/b.jpg" ∈ [".jpg", ".jpeg", ".png"] ∧
      envW.rasterOf "img/b.jpg" =
        .ok { naturalWidth := 3000, webpSize := 100, jpegSize := 200, pngSize := 300 }) ∧
    (∃ rs logs,
      optimizeImage envW "img/b.jpg" (imageOutputDir "img/b.jpg") = (.ok rs, logs) ∧
      (∃ r ∈ rs, r.format = "webp") ∧
      ∀ r ∈ rs, r.format = "webp" →
        ∃ w, r.width = some w ∧ w ≤ min 3000 CONFIG.MAX_IMAGE_WIDTH ∧ w ≤ 3000) :=
  ⟨⟨by decide, rfl⟩,
   C4_webp_width_clamped envW "img/b.jpg"
     { naturalWidth := 3000, webpSize := 100, jpegSize := 200, pngSize := 300 }
     (by decide) rfl⟩

/-- C10: `.webp` is an accepted image extension: such files are
discovered as image inputs, and a successful transform yields exactly one
asset record — a resized `.webp` rendition — with no JPEG or PNG
sibling. -/
theorem C10_webp_inputs (tree : List String) (env : BuildEnv) (p : String)
    (data : RasterData) (hp : p ∈ tree) (hig : ignoredPath p = false)
    (hext : extname p = ".webp") (hr : env.rasterOf p = .ok data) :
    ".webp" ∈ SUPPORTED_IMAGE_FORMATS ∧
    p ∈ kindFiles tree .image ∧
    ∃ r, optimizeImage env p (imageOutputDir p) =
        (.ok [r], [⟨.info, "Optimized image", p⟩]) ∧
      r.format = "webp" ∧
      r.width = some (min (min data.naturalWidth CONFIG.MAX_IMAGE_WIDTH)
        data.naturalWidth) := by
  refine ⟨by decide, ?_, ?_⟩
  · rw [mem_kindFiles]
    refine ⟨hp, ?_⟩
    simp [kindMatches, hig, hext]
    decide
  · have hsup : strMem (extname p) SUPPORTED_IMAGE_FORMATS = true := by
      rw [hext]; decide
    have hsvg : extname p ≠ ".svg" := by rw [hext]; decide
    rw [optimizeImage_eq_raster env p (imageOutputDir p) hsup hsvg, hext]
    simp only [optimizeImageRaster, hr]
    
    exact ⟨_, rfl, rfl, rfl⟩

/-- Witness for C10 at a concrete `.webp` source file. -/
theorem C10_webp_inputs_witness :
    ("icons/star.webp" ∈ (["icons/star.webp"] : List String) ∧
      ignoredPath "icons/star.webp" = false ∧
      extname "icons/star.webp" = ".webp" ∧
      envW.rasterOf "icons/star.webp" =
        .ok { naturalWidth := 3000, webpSize := 100, jpegSize := 200, pngSize := 300 }) ∧
    (".webp" ∈ SUPPORTED_IMAGE_FORMATS ∧
      "icons/star.webp" ∈ kindFiles ["icons/star.webp"] .image ∧
      ∃ r, optimizeImage envW "icons/star.webp" (imageOutputDir "icons/star.webp") =
          (.ok [r], [⟨.info, "Optimized image", "icons/star.webp"⟩]) ∧
        r.format = "webp" ∧
        r.width = some (min (min 3000 CONFIG.MAX_IMAGE_WIDTH) 3000)) :=
  ⟨⟨by decide, by decide, by decide, rfl⟩,
   C10_webp_inputs ["icons/star.webp"] envW "icons/star.webp"
     { naturalWidth := 3000, webpSize := 100, jpegSize := 200, pngSize := 300 }
     (by decide) (by decide) (by decide) rfl⟩

/-- C8: when minification yields no output code the JS transformer fails
with the same wrapped per-file error as any thrown transform error: one
error record for that file, and every discovered file is still
attempted. -/
theorem C8_empty_minification_is_error (env : BuildEnv) (tree : List String)
    (p : String) (code : Option String) (hnd : tree.Nodup)
    (hp : p ∈ kindFiles tree .js) (hc : env.jsOf p = .ok code)
    (hfalsy : jsFalsy code = true) :
    (optimizeJS env p (mirroredOutputPath p)).1 =
      .error ("Failed to optimize JavaScript: " ++ p) ∧
    ({ type := "js", path := p,
       error := "Failed to optimize JavaScript: " ++ p } : ErrorRecord)
      ∈ (processAssets env tree).1.errors ∧
    errorCountFor (processAssets env tree).1 p = 1 ∧
    ∀ k' q, q ∈ kindFiles tree k' → stillProcessed env tree k' q := by
  have herr : (optimizeJS env p (mirroredOutputPath p)).1 =
      .error ("Failed to optimize JavaScript: " ++ p) := by
    simp [optimizeJS, hc, hfalsy]
  have hfail : kindFails env .js p = true := by
    simp [kindFails, herr, isErr]
  refine ⟨herr, ?_, errorCountFor_of_fails env tree .js p hnd hp hfail,
    fun k' q hq => stillProcessed_of_mem env tree k' q hnd hq⟩
  rw [processAssets_errors]
  refine List.mem_append_left _ (List.mem_append_right _ ?_)
  refine (mem_listFlat _ _ _).mpr ⟨p, hp, ?_⟩
  simp [kindErrOf, simpleErrOf, herr]

/-- Witness for C8 at a concrete JS file for which terser returns no
code. -/
theorem C8_empty_minification_is_error_witness :
    ((["js/empty.js", "app.js"] : List String).Nodup ∧
      "js/empty.js" ∈ kindFiles ["js/empty.js", "app.js"] .js ∧
      envW.jsOf "js/empty.js" = .ok none ∧ jsFalsy none = true) ∧
    ((optimizeJS envW "js/empty.js" (mirroredOutputPath "js/empty.js")).1 =
      .error ("Failed to optimize JavaScript: " ++ "js/empty.js") ∧
    ({ type := "js", path := "js/empty.js",
       error := "Failed to optimize JavaScript: " ++ "js/empty.js" } : ErrorRecord)
      ∈ (processAssets envW ["js/empty.js", "app.js"]).1.errors ∧
    errorCountFor (processAssets envW ["js/empty.js", "app.js"]).1 "js/empty.js" = 1 ∧
    ∀ k' q, q ∈ kindFiles ["js/empty.js", "app.js"] k' →
      stillProcessed envW ["js/empty.js", "app.js"] k' q) :=
  ⟨⟨by decide, by decide, rfl, rfl⟩,
   C8_empty_minification_is_error envW ["js/empty.js", "app.js"] "js/empty.js"
     none (by decide) (by decide) rfl rfl⟩

/-- Whether the run emitted the `Unsupported image format` warning for
`p`. -/
def warnedFor (env : BuildEnv) (tree : List String) (p : String) : Prop :=
  (⟨.warn, "Unsupported image format", p⟩ : LogEvent) ∈ (processAssets env tree).2

theorem imgRecords_pos_of_ok (env : BuildEnv) (p : String)
    (hsup : strMem (extname p) SUPPORTED_IMAGE_FORMATS = true)
    (hok : kindFails env .image p = false) :
    0 < (imgRecords env p).length := by
  rcases hfull : optimizeImage env p (imageOutputDir p) with ⟨res, ls⟩
  cases res
  case error m =>
    rw [kindFails] at hok
    rw [show (optimizeImage env p (imageOutputDir p)).1 = .error m by rw [hfull]]
      at hok
    simp [isErr] at hok
  case ok rs =>
    have hne : rs ≠ [] :=
      optimizeImage_ok_ne_nil env p (imageOutputDir p) hsup rs ls hfull
    have : imgRecords env p = rs := by
      rw [imgRecords, hfull]
    rw [this]
    exact List.length_pos.mpr hne

/-- C3: every discovered file is accounted for exactly once — it belongs
to exactly one kind, and it either contributes at least one asset record
(success), or only the unsupported-format warning with zero records, or
exactly one error record. -/
theorem C3_every_file_accounted (env : BuildEnv) (tree : List String)
    (p : String) (hnd : tree.Nodup) (hp : p ∈ allDiscovered tree) :
    ∃ k, p ∈ kindFiles tree k ∧ (∀ k', p ∈ kindFiles tree k' → k' = k) ∧
      ((0 < kindContributedCount env k p ∧
          errorCountFor (processAssets env tree).1 p = 0 ∧
          kindRecordsIn env tree k p) ∨
       (warnedFor env tree p ∧ kindContributedCount env k p = 0 ∧
          errorCountFor (processAssets env tree).1 p = 0) ∨
       (errorCountFor (processAssets env tree).1 p = 1 ∧
          kindContributedCount env k p = 0)) := by
  have hk : ∃ k, p ∈ kindFiles tree k := by
    rcases List.mem_append.mp hp with h | h4
    · rcases List.mem_append.mp h with h | h3
      · rcases List.mem_append.mp h with h1 | h2
        · exact ⟨.image, h1⟩
        · exact ⟨.css, h2⟩
      · exact ⟨.js, h3⟩
    · exact ⟨.html, h4⟩
  rcases hk with ⟨k, hk⟩
  refine ⟨k, hk, fun k' h' => kindFiles_disjoint tree k' k p h' hk, ?_⟩
  cases hfail : kindFails env k p
  · left
    refine ⟨?_, ?_, (stillProcessed_of_mem env tree k p hnd hk).2 hfail⟩
    · cases k
      case image =>
        have hsup : strMem (extname p) SUPPORTED_IMAGE_FORMATS = true := by
          have := ((mem_kindFiles tree .image p).mp hk).2
          simp only [kindMatches, Bool.and_eq_true] at this
          exact this.2
        exact imgRecords_pos_of_ok env p hsup hfail
      case css => simp [kindContributedCount, hfail]
      case js => simp [kindContributedCount, hfail]
      case html => simp [kindContributedCount, hfail]
    · apply errorCountFor_of_no_fail env tree p hnd
      intro k' hk'
      rw [kindFiles_disjoint tree k' k p hk' hk]
      exact hfail
  · right
    right
    refine ⟨errorCountFor_of_fails env tree k p hnd hk hfail, ?_⟩
    cases k
    case image => simp [kindContributedCount, imgRecords_of_fails env p hfail]
    case css => simp [kindContributedCount, hfail]
    case js => simp [kindContributedCount, hfail]
    case html => simp [kindContributedCount, hfail]

/-- Witness for C3 at a concrete discovered file. -/
theorem C3_every_file_accounted_witness :
    (treeW.Nodup ∧ "style.css" ∈ allDiscovered treeW) ∧
    (∃ k, "style.css" ∈ kindFiles treeW k ∧
      (∀ k', "style.css" ∈ kindFiles treeW k' → k' = k) ∧
      ((0 < kindContributedCount envW k "style.css" ∧
          errorCountFor (processAssets envW treeW).1 "style.css" = 0 ∧
          kindRecordsIn envW treeW k "style.css") ∨
       (warnedFor envW treeW "style.css" ∧
          kindContributedCount envW k "style.css" = 0 ∧
          errorCountFor (processAssets envW treeW).1 "style.css" = 0) ∨
       (errorCountFor (processAssets envW treeW).1 "style.css" = 1 ∧
          kindContributedCount envW k "style.css" = 0))) :=
  ⟨⟨by decide, by decide⟩,
   C3_every_file_accounted envW treeW "style.css" (by decide) (by decide)⟩

/-- C5 counterexample: with `photo.bmp` present in the source tree, the
run emits **no** warning log entry for it (discovery never selects it),
while the rest of the claimed behaviour (no records, no error entry, no
effect on the exit code) does hold. -/
theorem C5_counterexample :
    extname "photo.bmp" = ".bmp" ∧
    "photo.bmp" ∈ (["photo.bmp", "img/b.jpg"] : List String) ∧
    (¬∃ e ∈ (processAssets envW ["photo.bmp", "img/b.jpg"]).2,
        e.level = .warn ∧ e.path = "photo.bmp") ∧
    (¬∃ e ∈ (processAssets envW ["photo.bmp", "img/b.jpg"]).1.errors,
        e.path = "photo.bmp") ∧
    mainExitCode envW .success ["photo.bmp", "img/b.jpg"] = 0 := by
  decide

/-- C5 (amended): a file with an unsupported image extension is never
discovered, so the run is exactly the run without it — zero asset
records, no error entry, no warning from the run, and an unchanged exit
code; the transformer's warning branch is observable only when
`optimizeImage` is invoked on such a file directly. -/
theorem C5_amended_unsupported_is_undiscovered (env : BuildEnv)
    (tree : List String) (p : String)
    (h1 : strMem (extname p) SUPPORTED_IMAGE_FORMATS = false)
    (h1L : strMem (lowerStr (extname p)) SUPPORTED_IMAGE_FORMATS = false)
    (h2 : extname p ≠ ".css") (h3 : extname p ≠ ".js")
    (h4 : extname p ≠ ".html") :
    processAssets env (tree ++ [p]) = processAssets env tree ∧
    mainExitCode env .success (tree ++ [p]) = mainExitCode env .success tree ∧
    (∀ k, p ∉ kindFiles tree k) ∧
    optimizeImage env p (imageOutputDir p) =
      (.ok [], [⟨.warn, "Unsupported image format", p⟩]) := by
  have hm : ∀ k, kindMatches k p = false := by
    intro k
    cases k <;> simp [kindMatches, h1, h2, h3, h4]
  have happ : ∀ k, kindFiles (tree ++ [p]) k = kindFiles tree k := by
    intro k
    rw [kindFiles_eq_filter, kindFiles_eq_filter, List.filter_append]
    simp [hm k]
  have hpa : processAssets env (tree ++ [p]) = processAssets env tree := by
    simp only [processAssets]
    rw [show discoverImageFiles (tree ++ [p]) = discoverImageFiles tree from happ .image,
      show discoverCssFiles (tree ++ [p]) = discoverCssFiles tree from happ .css,
      show discoverJsFiles (tree ++ [p]) = discoverJsFiles tree from happ .js,
      show discoverHtmlFiles (tree ++ [p]) = discoverHtmlFiles tree from happ .html]
  refine ⟨hpa, by simp only [mainExitCode, hpa], ?_, ?_⟩
  · intro k hmem
    have hmt := ((mem_kindFiles tree k p).mp hmem).2
    rw [hm k] at hmt
    cases hmt
  · simp [optimizeImage, h1L]

/-- Witness for the amended C5 at `photo.bmp`. -/
theorem C5_amended_witness :
    (strMem (extname "photo.bmp") SUPPORTED_IMAGE_FORMATS = false ∧
      strMem (lowerStr (extname "photo.bmp")) SUPPORTED_IMAGE_FORMATS = false ∧
      extname "photo.bmp" ≠ ".css" ∧ extname "photo.bmp" ≠ ".js" ∧
      extname "photo.bmp" ≠ ".html") ∧
    (processAssets envW (["img/b.jpg"] ++ ["photo.bmp"]) =
        processAssets envW ["img/b.jpg"] ∧
      mainExitCode envW .success (["img/b.jpg"] ++ ["photo.bmp"]) =
        mainExitCode envW .success ["img/b.jpg"] ∧
      (∀ k, "photo.bmp" ∉ kindFiles ["img/b.jpg"] k) ∧
      optimizeImage envW "photo.bmp" (imageOutputDir "photo.bmp") =
        (.ok [], [⟨.warn, "Unsupported image format", "photo.bmp"⟩])) :=
  ⟨⟨by decide, by decide, by decide, by decide, by decide⟩,
   C5_amended_unsupported_is_undiscovered envW ["img/b.jpg"] "photo.bmp"
     (by decide) (by decide) (by decide) (by decide) (by decide)⟩

/-- C6 counterexample: two discovered JPEGs of which exactly one fails —
the summary's image `count` is `2` (the webp and jpeg renditions of the
one successful file), not `N − 1 = 1`. -/
theorem C6_counterexample :
    (["img/a.jpg", "img/b.jpg"] : List String).Nodup ∧
    kindFiles ["img/a.jpg", "img/b.jpg"] .image = ["img/a.jpg", "img/b.jpg"] ∧
    kindFails envW .image "img/a.jpg" = true ∧
    kindFails envW .image "img/b.jpg" = false ∧
    (kindFiles ["img/a.jpg", "img/b.jpg"] .image).length - 1 = 1 ∧
    kindSummaryCount
      (summarize (processAssets envW ["img/a.jpg", "img/b.jpg"]).1) .image = 2 ∧
    ¬kindSummaryCount
        (summarize (processAssets envW ["img/a.jpg", "img/b.jpg"]).1) .image =
      (kindFiles ["img/a.jpg", "img/b.jpg"] .image).length - 1 := by
  decide

/-- C6 (amended): with N discovered files of a kind of which exactly one
fails, the other N−1 files are still attempted, the exit code is
non-zero, and the kind's summary count equals the number of records the
successful files produced: N−1 for the css/js/html kinds, and the total
number of renditions of the successful files for the image kind (which
can exceed N−1, e.g. two per JPEG source). -/
theorem C6_amended_per_kind_counts (env : BuildEnv) (tree : List String)
    (k : AssetKind) (p : String) (hnd : tree.Nodup)
    (hp : p ∈ kindFiles tree k) (hfail : kindFails env k p = true)
    (hothers : ∀ q ∈ kindFiles tree k, q ≠ p → kindFails env k q = false) :
    mainExitCode env .success tree = 1 ∧
    (∀ q ∈ kindFiles tree k, q ≠ p → stillProcessed env tree k q) ∧
    kindSummaryCount (summarize (processAssets env tree).1) k =
      (match k with
       | AssetKind.image =>
         (((kindFiles tree .image).filter (fun q => !kindFails env .image q)).map
           (fun q => (imgRecords env q).length)).sum
       | _ => (kindFiles tree k).length - 1) := by
  refine ⟨mainExitCode_of_errors env tree
      (errors_pos_of_countFor _ p (errorCountFor_of_fails env tree k p hnd hp hfail)),
    fun q hq _ => stillProcessed_of_mem env tree k q hnd hq, ?_⟩
  cases k
  case image =>
    rw [show kindSummaryCount (summarize (processAssets env tree).1) AssetKind.image =
        (summarize (processAssets env tree).1).images.count from rfl,
      summarize_images_count]
    refine Eq.trans ((sum_map_filter_eq _ _ _ ?_).symm) rfl
    intro q _ hqf
    have hqt : kindFails env .image q = true := by
      revert hqf
      cases kindFails env .image q <;> simp
    rw [imgRecords_of_fails env q hqt]
    rfl
  case css =>
    rw [show kindSummaryCount (summarize (processAssets env tree).1) AssetKind.css =
        (summarize (processAssets env tree).1).css.count from rfl,
      summarize_css_count]
    exact Eq.trans (filter_not_length_of_unique_fail _ _ p
      (nodup_kindFiles tree hnd .css) hp hfail hothers) rfl
  case js =>
    rw [show kindSummaryCount (summarize (processAssets env tree).1) AssetKind.js =
        (summarize (processAssets env tree).1).js.count from rfl,
      summarize_js_count]
    exact Eq.trans (filter_not_length_of_unique_fail _ _ p
      (nodup_kindFiles tree hnd .js) hp hfail hothers) rfl
  case html =>
    rw [show kindSummaryCount (summarize (processAssets env tree).1) AssetKind.html =
        (summarize (processAssets env tree).1).html.count from rfl,
      summarize_html_count]
    exact Eq.trans (filter_not_length_of_unique_fail _ _ p
      (nodup_kindFiles tree hnd .html) hp hfail hothers) rfl

/-- Witness for the amended C6 at the two-JPEG scenario. -/
theorem C6_amended_witness :
    ((["img/a.jpg", "img/b.jpg"] : List String).Nodup ∧
      "img/a.jpg" ∈ kindFiles ["img/a.jpg", "img/b.jpg"] .image ∧
      kindFails envW .image "img/a.jpg" = true ∧
      (∀ q ∈ kindFiles ["img/a.jpg", "img/b.jpg"] .image, q ≠ "img/a.jpg" →
        kindFails envW .image q = false)) ∧
    (mainExitCode envW .success ["img/a.jpg", "img/b.jpg"] = 1 ∧
      (∀ q ∈ kindFiles ["img/a.jpg", "img/b.jpg"] .image, q ≠ "img/a.jpg" →
        stillProcessed envW ["img/a.jpg", "img/b.jpg"] .image q) ∧
      kindSummaryCount
        (summarize (processAssets envW ["img/a.jpg", "img/b.jpg"]).1) .image =
        (((kindFiles ["img/a.jpg", "img/b.jpg"] .image).filter
            (fun q => !kindFails envW .image q)).map
          (fun q => (imgRecords envW q).length)).sum) :=
  ⟨⟨by decide, by decide, by decide, by decide⟩,
   C6_amended_per_kind_counts envW ["img/a.jpg", "img/b.jpg"] .image "img/a.jpg"
     (by decide) (by decide) (by decide) (by decide)⟩
